import Mathlib

/-!
Verification of the smart-wallet front end (src/app/page.tsx and the bundled
transfer service) against its natural-language specification.

The development shallowly embeds the two components of the repository:

* the Sponsored Transfer Executor `transferUSDC` (the transfer-service module
  bundled at the end of src/app/page.tsx), modelled as a pure function of a
  `ChainEnv` record that supplies the behaviour of every external collaborator
  (RPC node, bundler, paymaster, signer);
* the UI handlers `createAccount` and `transfer` of the `SmartWallet`
  component, modelled as state transitions on a `UIState` record.

JavaScript numeric behaviour is modelled exactly: binary64 doubles are
represented by their exact rational values (an unnormalised fraction type
`Frac` keeps every operation kernel-computable), and the conversions
`parseFloat`, double multiplication, `Number(bigint)` and `BigInt(number)`
follow the IEEE-754 round-to-nearest, ties-to-even rule.
-/

namespace SmartWalletAA

/-- Fuel-driven binary logarithm; with fuel at least `n` it computes
`Nat.log2 n` while remaining reducible by the kernel. -/
def log2Fuel : Nat → Nat → Nat
  | 0, _ => 0
  | f+1, n => if 2 ≤ n then log2Fuel f (n/2) + 1 else 0

/-- Floor of the binary logarithm (0 for 0), kernel-computable. -/
def natLog2 (n : Nat) : Nat := log2Fuel n n

/-- Exact rational number as an unnormalised fraction `num / den`
(denominator kept positive by construction).  Avoiding normalisation keeps
all arithmetic reducible by the kernel. -/
structure Frac where
  num : Int
  den : Nat
deriving DecidableEq, Repr

/-- Embed an integer as a fraction. -/
def Frac.ofInt (n : Int) : Frac := ⟨n, 1⟩

/-- Product of two fractions. -/
def Frac.mul (a b : Frac) : Frac := ⟨a.num * b.num, a.den * b.den⟩

/-- Value equality of fractions (cross multiplication). -/
def Frac.eqv (a b : Frac) : Prop := a.num * (b.den : Int) = b.num * (a.den : Int)

instance Frac.decEqv (a b : Frac) : Decidable (a.eqv b) := by
  unfold Frac.eqv; infer_instance

/-- Order on fractions with positive denominators (cross multiplication). -/
def Frac.le (a b : Frac) : Prop := a.num * (b.den : Int) ≤ b.num * (a.den : Int)

instance Frac.decLe (a b : Frac) : Decidable (a.le b) := by
  unfold Frac.le; infer_instance

instance exceptDecEq {ε α : Type} [DecidableEq ε] [DecidableEq α] :
    DecidableEq (Except ε α)
  | .ok a, .ok b =>
    if h : a = b then isTrue (by rw [h]) else
      isFalse (by intro hc; cases hc; exact h rfl)
  | .ok _, .error _ => isFalse (by intro hc; cases hc)
  | .error _, .ok _ => isFalse (by intro hc; cases hc)
  | .error e, .error e2 =>
    if h : e = e2 then isTrue (by rw [h]) else
      isFalse (by intro hc; cases hc; exact h rfl)

/-- Multiply a fraction by `2 ^ k` for a possibly negative `k`. -/
def Frac.scalePow2 (a : Frac) (k : Int) : Frac :=
  if 0 ≤ k then ⟨a.num * 2 ^ k.toNat, a.den⟩ else ⟨a.num, a.den * 2 ^ (-k).toNat⟩

/-- Floor of the binary logarithm of a positive fraction. -/
def Frac.floorLog2 (a : Frac) : Int :=
  let e0 : Int := (natLog2 a.num.toNat : Int) - (natLog2 a.den : Int)
  if (Frac.ofInt 1).scalePow2 e0 |>.le a then e0 else e0 - 1

/-- Round a fraction with positive denominator to the nearest integer,
ties to even. -/
def Frac.roundTiesEven (a : Frac) : Int :=
  let f := a.num.fdiv a.den
  let r2 := 2 * (a.num - f * (a.den : Int))
  if r2 < (a.den : Int) then f
  else if (a.den : Int) < r2 then f + 1
  else if f % 2 = 0 then f else f + 1

/-- Exact value of the IEEE-754 binary64 double nearest to a rational
(round to nearest, ties to even).  The model covers the normal range of
binary64, which contains every magnitude handled by this program; neither
subnormal underflow nor overflow to infinity is reachable here. -/
def roundToDouble (a : Frac) : Frac :=
  if a.num = 0 then Frac.ofInt 0
  else
    let b : Frac := ⟨|a.num|, a.den⟩
    let e := b.floorLog2
    let m := (b.scalePow2 (52 - e)).roundTiesEven
    (Frac.ofInt (if a.num < 0 then -m else m)).scalePow2 (e - 52)

/-- JavaScript multiplication of two doubles: the exact product rounded back
to binary64. -/
def jsMulDouble (a b : Frac) : Frac := roundToDouble (a.mul b)

/-- JavaScript conversion `Number(b)` of a nonnegative bigint to a double:
the integer value of the nearest binary64.  Exact below `2 ^ 53`; for larger
values the 53-bit significand forces rounding (ties to even). -/
def natRoundToDoubleInt (n : Nat) : Nat :=
  if n = 0 then 0
  else
    let e := natLog2 n
    let unit := 2 ^ (e - 52)
    let q := n / unit
    let r := n % unit
    (if 2*r < unit then q else if unit < 2*r then q + 1
     else if q % 2 = 0 then q else q + 1) * unit

/-- Decimal digit test. -/
def isDecDigit (c : Char) : Bool := '0' ≤ c && c ≤ '9'

/-- Numeric value of a decimal digit character. -/
def digitVal (c : Char) : Nat := c.toNat - '0'.toNat

/-- Numeric value of a list of decimal digit characters. -/
def digitsVal (l : List Char) : Nat := l.foldl (fun a c => 10 * a + digitVal c) 0

/-- Split a character list at the first dot, if any. -/
def splitDot : List Char → List Char × Option (List Char)
  | [] => ([], none)
  | c :: cs =>
    if c = '.' then ([], some cs)
    else
      let (i, f) := splitDot cs
      (c :: i, f)

/-- Exact rational value of a plain decimal numeral `digits[.digits]`
(at least one digit overall).  Returns `none` for any other string; this is
the domain of valid amount strings of the specification. -/
def decimalToFrac (s : String) : Option Frac :=
  let (ip, fp) := splitDot s.data
  match fp with
  | none =>
    if ip ≠ [] ∧ ip.all isDecDigit then some (Frac.ofInt (digitsVal ip)) else none
  | some f =>
    if (ip ++ f) ≠ [] ∧ (ip ++ f).all isDecDigit then
      some ⟨digitsVal ip * 10 ^ f.length + digitsVal f, 10 ^ f.length⟩
    else none

/-- JavaScript `parseFloat` on a valid decimal numeral: the nearest binary64
to its exact value.  `none` models `NaN`. -/
def jsParseFloat (s : String) : Option Frac := (decimalToFrac s).map roundToDouble

/-- JavaScript `BigInt(x)` for a double `x`: the exact integer if the double
is integral, otherwise a thrown `RangeError`. -/
def jsBigIntOfDouble (q : Frac) : Except String Int :=
  if q.num % (q.den : Int) = 0 then .ok (q.num / (q.den : Int)) else .error "RangeError"

/-- Amount conversion of the UI transfer handler, src/app/page.tsx line 106:
`BigInt(parseFloat(amount) * 1000000)`.  `parseFloat` yields a double, the
multiplication is double multiplication, and `BigInt` throws a `RangeError`
when its argument is not an integral double (`NaN` included). -/
def amountInWei (amount : String) : Except String Int :=
  match jsParseFloat amount with
  | none => .error "RangeError"
  | some x => jsBigIntOfDouble (jsMulDouble x (Frac.ofInt 1000000))

/-- Conversion demanded by the words of the specification: the exact value of
the amount string scaled by `10 ^ 6` and rounded to the nearest integer.
Declared only to compare the code against the specification. -/
def specAmountMicro (s : String) : Option Int :=
  (decimalToFrac s).map fun q => (q.mul (Frac.ofInt 1000000)).roundTiesEven

/-- Big-endian byte string of width `w` for the integer `n` (the low `8 * w`
bits). -/
def beBytes (w n : Nat) : List Nat :=
  (List.range w).reverse.map fun i => n / 256 ^ i % 256

/-- Value typed for the packed ABI encoding used by the transfer service. -/
inductive PackedValue where
  | uint8 (n : Nat)
  | address (a : Nat)
  | uint256 (n : Nat)
  | bytes (b : List Nat)
deriving DecidableEq, Repr

/-- Packed size and representation of a single value, as in the `viem`
`encodePacked` helper: `uint8` in 1 byte, `address` in 20 bytes, `uint256`
in 32 bytes, `bytes` verbatim. -/
def packValue : PackedValue → List Nat
  | .uint8 n => beBytes 1 n
  | .address a => beBytes 20 a
  | .uint256 n => beBytes 32 n
  | .bytes b => b

/-- Non-padded concatenating ABI encoding (the `viem` `encodePacked`). -/
def encodePacked (vs : List PackedValue) : List Nat := (vs.map packValue).flatten

/-- Zero-pad a byte string on the right to a multiple of 32 bytes. -/
def pad32 (b : List Nat) : List Nat :=
  b ++ List.replicate ((32 - b.length % 32) % 32) 0

/-- Magic suffix of an ERC-6492 wrapped signature: the byte pair `0x64 0x92`
repeated 16 times. -/
def erc6492MagicSuffix : List Nat :=
  [0x64, 0x92, 0x64, 0x92, 0x64, 0x92, 0x64, 0x92,
   0x64, 0x92, 0x64, 0x92, 0x64, 0x92, 0x64, 0x92,
   0x64, 0x92, 0x64, 0x92, 0x64, 0x92, 0x64, 0x92,
   0x64, 0x92, 0x64, 0x92, 0x64, 0x92, 0x64, 0x92]

/-- Test for the ERC-6492 wrapper: the signature ends with the 32-byte magic
suffix (the `viem` `isErc6492Signature`). -/
def isErc6492Signature (sig : List Nat) : Bool :=
  decide (32 ≤ sig.length) && decide (sig.drop (sig.length - 32) = erc6492MagicSuffix)

/-- Big-endian value of the 32-byte word starting at `pos`. -/
def readWord (bs : List Nat) (pos : Nat) : Nat :=
  ((bs.drop pos).take 32).foldl (fun a b => 256 * a + b) 0

/-- ABI-decode a dynamic `bytes` value whose length word starts at `pos`. -/
def readBytes (bs : List Nat) (pos : Nat) : List Nat :=
  (bs.drop (pos + 32)).take (readWord bs pos)

/-- Result of parsing a possibly ERC-6492 wrapped signature. -/
structure Erc6492Parsed where
  signature : List Nat
  address : Option Nat := none
  callData : Option (List Nat) := none
deriving DecidableEq, Repr

/-- Parsing of an ERC-6492 signature (the `viem` `parseErc6492Signature`):
a wrapped signature is ABI-decoded as the triple
`(address, bytes, bytes)` whose third component is the raw inner signature;
anything else is returned unchanged. -/
def parseErc6492Signature (sig : List Nat) : Erc6492Parsed :=
  if isErc6492Signature sig then
    { address := some (readWord sig 0),
      callData := some (readBytes sig (readWord sig 32)),
      signature := readBytes sig (readWord sig 64) }
  else { signature := sig }

/-- ABI encoding of the triple `(address, bytes, bytes)`: three head words
(value, then the two tail offsets 96 and `128 + |padded data|`), then each
`bytes` value as a length word followed by its zero-padded content. -/
def encodeErc6492AbiTriple (f : Nat) (d s : List Nat) : List Nat :=
  beBytes 32 f ++ beBytes 32 96 ++ beBytes 32 (128 + (pad32 d).length) ++
    beBytes 32 d.length ++ pad32 d ++ beBytes 32 s.length ++ pad32 s

/-- ERC-6492 wrapping of a signature `s` for factory `f` with deployment
call data `d`: the ABI-encoded triple followed by the magic suffix. -/
def serializeErc6492Signature (f : Nat) (d s : List Nat) : List Nat :=
  encodeErc6492AbiTriple f d s ++ erc6492MagicSuffix

/-- USDC token contract address on Arbitrum Sepolia (transfer service). -/
def ARBITRUM_SEPOLIA_USDC : Nat := 0x75faf114eafb1BDbe2F0316DF893fd58CE46AA4d

/-- Circle USDC paymaster contract address on Arbitrum Sepolia. -/
def ARBITRUM_SEPOLIA_PAYMASTER : Nat := 0x7C5D876b446F3F1F08E2d3513D9062e681c4388C

/-- Ceiling on the USDC spend authorised per user operation
(`MAX_GAS_USDC = 1000000n`, one USDC at 6 decimals). -/
def MAX_GAS_USDC : Nat := 1000000

/-- Chain id of Arbitrum Sepolia. -/
def arbitrumSepoliaChainId : Nat := 421614

/-- Kernel account version tag passed to `toEcdsaKernelSmartAccount` at both
derivation sites. -/
def kernelVersion : String := "0.3.1"

/-- EIP-2612 permit message typed data. -/
structure PermitTypedData where
  token : Nat
  chainId : Nat
  owner : Nat
  spender : Nat
  value : Nat
  nonce : Nat
deriving DecidableEq, Repr

/-- Modelled from the spec: the helper `eip2612Permit` of
`./permit-helpers` is not under src/; per the specification it constructs
the EIP-2612 permit typed data with owner set to the smart account address,
spender set to the fixed paymaster address and value set to the requested
sponsorship ceiling (the nonce is read from the token contract). -/
def eip2612Permit (token chainId owner spender value nonce : Nat) : PermitTypedData :=
  { token := token, chainId := chainId, owner := owner,
    spender := spender, value := value, nonce := nonce }

/-- Typed-data signing request: the permit message together with the
`primaryType` tag added before signing. -/
structure SignData where
  message : PermitTypedData
  primaryType : String
deriving DecidableEq, Repr

/-- Single call of a user operation: the token transfer invocation
(`to` in the source). -/
structure CallSpec where
  toAddress : Nat
  functionName : String
  argRecipient : String
  argAmount : Int
deriving DecidableEq, Repr

/-- Gas limits returned by the bundler estimation. -/
structure GasEstimates where
  callGasLimit : Nat
  preVerificationGas : Nat
  verificationGasLimit : Nat
  paymasterPostOpGasLimit : Nat
  paymasterVerificationGasLimit : Nat
deriving DecidableEq, Repr

/-- Request sent to `estimateUserOperationGas` (placeholder unit fees). -/
structure EstimateRequest where
  account : Nat
  calls : List CallSpec
  paymaster : Nat
  paymasterData : List Nat
  paymasterPostOpGasLimit : Nat
  maxFeePerGas : Nat
  maxPriorityFeePerGas : Nat
deriving DecidableEq, Repr

/-- Request sent to `sendUserOperation`. -/
structure SendUserOperationRequest where
  account : Nat
  calls : List CallSpec
  callGasLimit : Nat
  preVerificationGas : Nat
  verificationGasLimit : Nat
  paymaster : Nat
  paymasterData : List Nat
  paymasterVerificationGasLimit : Nat
  paymasterPostOpGasLimit : Nat
  maxFeePerGas : Nat
  maxPriorityFeePerGas : Nat
deriving DecidableEq, Repr

/-- User-operation receipt as returned by the bundler. -/
structure UserOpReceipt where
  success : Bool
  actualGasUsed : Nat
  actualGasCost : Nat
  transactionHash : Nat
  transactionGasUsed : Nat
deriving DecidableEq, Repr

/-- Behaviour of every external collaborator of the program: signer,
derivation library, RPC node, paymaster and bundler.  Library derivations
are modelled as pure functions of their arguments, per the deterministic
counterfactual-derivation contract of the account-abstraction SDK.
`balanceOfAt t` is the USDC balance of the smart account returned by a
`balanceOf` read performed as the `t`-th awaited external interaction of
`transferUSDC`, in program order: 1 account derivation, 2 permit
construction, 3 typed-data signing, 4 paymaster surcharge call, 5 gas-price
query, 6 gas estimation, 7 submission, 8 receipt wait, 9 and 10 the two
`balanceOf` reads. -/
structure ChainEnv where
  generatePrivateKey : List Char
  privateKeyToAccount : List Char → Nat
  kernelAccountAddress : Nat → String → Nat
  permitNonce : Nat
  signTypedData : Nat → SignData → List Nat
  additionalGasChargeReturn : Option Nat
  maxFeePerGas : Nat
  maxPriorityFeePerGas : Nat
  estimateUserOperationGas : EstimateRequest → GasEstimates
  sendUserOperation : SendUserOperationRequest → Nat
  waitForUserOperationReceipt : Nat → UserOpReceipt
  balanceOfAt : Nat → Nat

/-- Index, in the interaction numbering of `ChainEnv.balanceOfAt`, of the
`sendUserOperation` submission step. -/
def submissionStepIndex : Nat := 7

/-- Paymaster post-op gas limit passed to `sendUserOperation`
(transfer service lines 383 to 386):
`BigInt(Math.max(Number(paymasterPostOpGasLimit), Number(additionalGasCharge)))`.
Both bigints pass through binary64 before the comparison. -/
def jsPostOpLimit (est charge : Nat) : Nat :=
  max (natRoundToDoubleInt est) (natRoundToDoubleInt charge)

/-- Observable outcome of one run of the transfer executor: the value it
returns (the receipt), the values it logs (account, permit signature, USDC
consumed) and the requests it hands to the bundler. -/
structure TransferResult where
  accountAddress : Nat
  permitData : PermitTypedData
  permitSignature : List Nat
  estimateRequest : EstimateRequest
  sent : SendUserOperationRequest
  receipt : UserOpReceipt
  usdcConsumed : Int

/-- Sponsored Transfer Executor `transferUSDC(privateKey, recipientAddress,
amount)` (the transfer-service module bundled in src/app/page.tsx,
lines 260 to 415), step for step: re-derive the smart account, construct and
sign the EIP-2612 permit, strip any ERC-6492 wrapper from the signature,
build the transfer call, pack the paymaster data, read the paymaster
surcharge (defaulting to 0 when the call returns nothing), query fees,
estimate gas with unit placeholder fees, submit with the post-op limit
raised through `jsPostOpLimit`, wait for the receipt, then read the balance
twice (interactions 9 and 10, both after the receipt) and log the difference
minus the amount as USDC consumed. -/
def transferUSDC (env : ChainEnv) (privateKey : List Char)
    (recipientAddress : String) (amount : Int) : TransferResult :=
  let owner := env.privateKeyToAccount privateKey
  let accountAddress := env.kernelAccountAddress owner kernelVersion
  let permitData := eip2612Permit ARBITRUM_SEPOLIA_USDC arbitrumSepoliaChainId
    accountAddress ARBITRUM_SEPOLIA_PAYMASTER MAX_GAS_USDC env.permitNonce
  let signData : SignData := ⟨permitData, "Permit"⟩
  let wrappedPermitSignature := env.signTypedData accountAddress signData
  let permitSignature := (parseErc6492Signature wrappedPermitSignature).signature
  let calls : List CallSpec :=
    [⟨ARBITRUM_SEPOLIA_USDC, "transfer", recipientAddress, amount⟩]
  let paymaster := ARBITRUM_SEPOLIA_PAYMASTER
  let paymasterData := encodePacked
    [.uint8 0, .address ARBITRUM_SEPOLIA_USDC, .uint256 MAX_GAS_USDC,
     .bytes permitSignature]
  let additionalGasCharge := env.additionalGasChargeReturn.getD 0
  let estReq : EstimateRequest :=
    ⟨accountAddress, calls, paymaster, paymasterData, additionalGasCharge, 1, 1⟩
  let est := env.estimateUserOperationGas estReq
  let sent : SendUserOperationRequest :=
    { account := accountAddress
      calls := calls
      callGasLimit := est.callGasLimit
      preVerificationGas := est.preVerificationGas
      verificationGasLimit := est.verificationGasLimit
      paymaster := paymaster
      paymasterData := paymasterData
      paymasterVerificationGasLimit := est.paymasterVerificationGasLimit
      paymasterPostOpGasLimit := jsPostOpLimit est.paymasterPostOpGasLimit additionalGasCharge
      maxFeePerGas := env.maxFeePerGas
      maxPriorityFeePerGas := env.maxPriorityFeePerGas }
  let userOpHash := env.sendUserOperation sent
  let userOpReceipt := env.waitForUserOperationReceipt userOpHash
  let usdcBalanceBefore := env.balanceOfAt 9
  let usdcBalanceAfter := env.balanceOfAt 10
  let usdcConsumed := (usdcBalanceBefore : Int) - (usdcBalanceAfter : Int) - amount
  { accountAddress := accountAddress
    permitData := permitData
    permitSignature := permitSignature
    estimateRequest := estReq
    sent := sent
    receipt := userOpReceipt
    usdcConsumed := usdcConsumed }

/-- Credentials cached by the UI after account creation. -/
structure AccountInfo where
  address : Nat
  owner : Nat
  privateKey : List Char
deriving DecidableEq, Repr

/-- Account Provisioner computation of the `createAccount` handler
(src/app/page.tsx lines 77 to 91): generate a private key, derive the owner
account and the kernel smart account at version `0.3.1`, and cache the
address, owner address and the key re-prefixed with `0x` (the template
applies `slice(2)` then prepends `0x`). -/
def createAccountCore (env : ChainEnv) : AccountInfo :=
  let privateKey := env.generatePrivateKey
  let ownerAddress := env.privateKeyToAccount privateKey
  let smartAccountAddress := env.kernelAccountAddress ownerAddress kernelVersion
  { address := smartAccountAddress
    owner := ownerAddress
    privateKey := '0' :: 'x' :: privateKey.drop 2 }

/-- React state of the `SmartWallet` component. -/
structure UIState where
  loading : Bool
  account : Option AccountInfo
  balance : String
  recipientAddress : String
  amount : String
  status : String
  usdcBalance : String

/-- Entry effects of the `createAccount` handler (before the first await). -/
def createAccountEntry (st : UIState) : UIState :=
  { st with loading := true, status := "Creating smart account..." }

/-- Full `createAccount` handler as a state transition; `outcome` is the
result of the awaited account creation, `Except.error` modelling a caught
exception.  The `finally` block clears `loading` on every path. -/
def createAccountUI (st : UIState) (outcome : Except String AccountInfo) : UIState :=
  let st1 := createAccountEntry st
  let st2 :=
    match outcome with
    | .ok info =>
      { st1 with account := some info, status := "Smart account created successfully!" }
    | .error e => { st1 with status := "Error creating smart account: " ++ e }
  { st2 with loading := false }

/-- Entry effects of the `transfer` handler (before the first await). -/
def transferEntry (st : UIState) : UIState :=
  { st with loading := true, status := "Initiating transfer..." }

/-- Result of the `try` body of the `transfer` handler: the amount string is
converted first (a non-integral product throws), then the executor is
invoked with the cached private key, the recipient and the converted
amount.  Reading `account.privateKey` with no cached account throws. -/
def transferOutcome (st : UIState)
    (exec : List Char → String → Int → Except String UserOpReceipt) :
    Except String UserOpReceipt :=
  match amountInWei st.amount with
  | .error e => .error e
  | .ok amt =>
    match st.account with
    | none => .error "TypeError"
    | some info => exec info.privateKey st.recipientAddress amt

/-- Full `transfer` handler (src/app/page.tsx lines 101 to 126) as a state
transition: on a successful receipt the status is set and both input fields
are cleared; on a failed receipt or a caught exception only the status
changes; the `finally` block clears `loading` on every path. -/
def transferUI (st : UIState)
    (exec : List Char → String → Int → Except String UserOpReceipt) : UIState :=
  let st1 := transferEntry st
  let st2 :=
    match transferOutcome st exec with
    | .ok receipt =>
      if receipt.success then
        { st1 with status := "Transfer completed successfully!",
                   recipientAddress := "", amount := "" }
      else { st1 with status := "Transfer failed. Please try again." }
    | .error e => { st1 with status := "Error during transfer: " ++ e }
  { st2 with loading := false }

/-- Disabled state of the Transfer button (src/app/page.tsx line 204):
`loading || !recipientAddress || !amount`; a string is falsy exactly when it
is empty. -/
def transferButtonDisabled (loading : Bool) (recipientAddress amount : String) : Bool :=
  loading || recipientAddress.isEmpty || amount.isEmpty

/-- Benign concrete environment used by witnesses and counterexamples:
the balance drops from 100 to 89 when the user operation executes
(between submission, interaction 7, and the receipt). -/
def sampleEnv : ChainEnv :=
  { generatePrivateKey := ['0', 'x', 'a', 'b', 'c', '1']
    privateKeyToAccount := fun k => k.length
    kernelAccountAddress := fun o v => 1000 * o + v.length
    permitNonce := 0
    signTypedData := fun _ _ => [1, 2, 3]
    additionalGasChargeReturn := some 42
    maxFeePerGas := 5
    maxPriorityFeePerGas := 2
    estimateUserOperationGas := fun _ => ⟨100, 200, 300, 400, 500⟩
    sendUserOperation := fun _ => 99
    waitForUserOperationReceipt := fun _ => ⟨true, 1000, 2000, 77, 900⟩
    balanceOfAt := fun t => if t ≤ 7 then 100 else 89 }

/-- Concrete private key used with `sampleEnv`. -/
def samplePk : List Char := ['0', 'x', 'a', 'b', 'c', '1']

/-- Environment whose paymaster surcharge `2 ^ 53 + 1` is not representable
as a binary64 double while the bundler estimate is 0. -/
def envLargeCharge : ChainEnv :=
  { sampleEnv with
    additionalGasChargeReturn := some (2 ^ 53 + 1)
    estimateUserOperationGas := fun _ => ⟨100, 200, 300, 0, 500⟩ }

/-- Validation of the binary64 model: the double nearest to 4.1 is exactly
`2308094809027379 / 2 ^ 49`. -/
theorem binary64_model_value_41tenths :
    (roundToDouble ⟨41, 10⟩).eqv ⟨2308094809027379, 2 ^ 49⟩ := by decide

/-- Validation of the binary64 model: the double product of the double 4.1
with 1000000 is exactly `8804682956799999 / 2 ^ 31`, not an integer. -/
theorem binary64_model_product_41tenths :
    (jsMulDouble (roundToDouble ⟨41, 10⟩) (Frac.ofInt 1000000)).eqv
      ⟨8804682956799999, 2 ^ 31⟩ := by decide

/-- Validation of the binary64 model: the double nearest to 0.07 is exactly
`5044031582654956 / 2 ^ 56`. -/
theorem binary64_model_value_7hundredths :
    (roundToDouble ⟨7, 100⟩).eqv ⟨5044031582654956, 2 ^ 56⟩ := by decide

/-- With enough fuel, `2 ^ log2Fuel f n` never exceeds a positive `n`. -/
theorem pow_log2Fuel_le : ∀ f n, 1 ≤ n → n ≤ f → 2 ^ log2Fuel f n ≤ n := by
  intro f
  induction f with
  | zero => intro n h1 h2; omega
  | succ f ih =>
    intro n h1 h2
    show 2 ^ (if 2 ≤ n then log2Fuel f (n / 2) + 1 else 0) ≤ n
    by_cases h : 2 ≤ n
    · rw [if_pos h]
      have hf : n / 2 ≤ f := by omega
      have hrec := ih (n / 2) (by omega) hf
      rw [pow_succ]
      have : 2 ^ log2Fuel f (n / 2) * 2 ≤ n / 2 * 2 := Nat.mul_le_mul_right 2 hrec
      omega
    · rw [if_neg h]; omega

/-- Bound on the fuel-driven logarithm from a power bound. -/
theorem natLog2_le_of_lt {n k : Nat} (h1 : 1 ≤ n) (h2 : n < 2 ^ (k + 1)) :
    natLog2 n ≤ k := by
  by_contra hc
  have hk : k + 1 ≤ natLog2 n := by omega
  have hpow : 2 ^ (k + 1) ≤ 2 ^ natLog2 n :=
    Nat.pow_le_pow_right (by norm_num) hk
  have hle : 2 ^ natLog2 n ≤ n := pow_log2Fuel_le n n h1 le_rfl
  omega

/-- JavaScript `Number` is exact on bigints below `2 ^ 53`. -/
theorem natRoundToDoubleInt_eq_self {n : Nat} (h : n < 2 ^ 53) :
    natRoundToDoubleInt n = n := by
  unfold natRoundToDoubleInt
  by_cases h0 : n = 0
  · simp [h0]
  · rw [if_neg h0]
    have hle : natLog2 n ≤ 52 := natLog2_le_of_lt (by omega) h
    have hz : natLog2 n - 52 = 0 := by omega
    simp only [hz, pow_zero, Nat.div_one, Nat.mod_one, Nat.mul_zero, mul_one]
    norm_num

/-- Below `2 ^ 53` the submitted post-op limit is the exact maximum. -/
theorem jsPostOpLimit_eq_max {a b : Nat} (ha : a < 2 ^ 53) (hb : b < 2 ^ 53) :
    jsPostOpLimit a b = max a b := by
  unfold jsPostOpLimit
  rw [natRoundToDoubleInt_eq_self ha, natRoundToDoubleInt_eq_self hb]

theorem beBytes_length (w n : Nat) : (beBytes w n).length = w := by
  simp [beBytes]

theorem beBytes_succ (w n : Nat) :
    beBytes (w + 1) n = n / 256 ^ w % 256 :: beBytes w n := by
  simp [beBytes, List.range_succ]

theorem foldl_base256_beBytes (w n : Nat) : ∀ a : Nat,
    (beBytes w n).foldl (fun x b => 256 * x + b) a = a * 256 ^ w + n % 256 ^ w := by
  induction w with
  | zero => intro a; simp [beBytes, Nat.mod_one]
  | succ w ih =>
    intro a
    rw [beBytes_succ, List.foldl_cons, ih]
    have hmod : n % 256 ^ (w + 1) = n % 256 ^ w + 256 ^ w * (n / 256 ^ w % 256) := by
      rw [pow_succ, Nat.mod_mul]
    rw [hmod, pow_succ]
    ring

/-- Reading a 32-byte word placed at the front recovers its value. -/
theorem readWord_beBytes32 (n : Nat) (rest : List Nat) (h : n < 2 ^ 256) :
    readWord (beBytes 32 n ++ rest) 0 = n := by
  unfold readWord
  rw [List.drop_zero]
  have htake := List.take_left (beBytes 32 n) rest
  rw [beBytes_length] at htake
  rw [htake, foldl_base256_beBytes]
  have hp : (256 : Nat) ^ 32 = 2 ^ 256 := by norm_num
  rw [hp, Nat.mod_eq_of_lt h]
  omega

/-- Reading a word starting right after a prefix reads from the suffix. -/
theorem readWord_append (pre bs : List Nat) :
    readWord (pre ++ bs) pre.length = readWord bs 0 := by
  unfold readWord
  rw [List.drop_left, List.drop_zero]

/-- Reading a word at any position only depends on the suffix there. -/
theorem readWord_eq_drop (bs : List Nat) (p : Nat) :
    readWord bs p = readWord (bs.drop p) 0 := by
  unfold readWord
  rw [List.drop_zero]

/-- Dropping `32 + k` over a leading 32-byte word drops `k` in the rest. -/
theorem drop_beBytes32 (m : Nat) (bs : List Nat) (k : Nat) :
    (beBytes 32 m ++ bs).drop (32 + k) = bs.drop k := by
  have h : 32 + k = (beBytes 32 m).length + k := by rw [beBytes_length]
  rw [h, List.drop_append]

/-- Parsing undoes ERC-6492 wrapping: for any factory address, deployment
call data and inner signature, the parsed signature of the serialized
wrapper is exactly the inner signature. -/
theorem parse_serialize_signature (f : Nat) (d s : List Nat)
    (hd : 128 + (pad32 d).length < 2 ^ 256) (hs : s.length < 2 ^ 256) :
    (parseErc6492Signature (serializeErc6492Signature f d s)).signature = s := by
  have hM : erc6492MagicSuffix.length = 32 := rfl
  have hblob : serializeErc6492Signature f d s
      = beBytes 32 f ++ (beBytes 32 96 ++ (beBytes 32 (128 + (pad32 d).length)
        ++ (beBytes 32 d.length ++ (pad32 d ++ (beBytes 32 s.length
        ++ (pad32 s ++ erc6492MagicSuffix)))))) := by
    unfold serializeErc6492Signature encodeErc6492AbiTriple
    simp [List.append_assoc]
  have hlen : (serializeErc6492Signature f d s).length
      = (encodeErc6492AbiTriple f d s).length + 32 := by
    unfold serializeErc6492Signature
    simp [hM]
  have hdropmagic : (serializeErc6492Signature f d s).drop
      ((serializeErc6492Signature f d s).length - 32) = erc6492MagicSuffix := by
    unfold serializeErc6492Signature
    rw [List.length_append, hM]
    have h1 : (encodeErc6492AbiTriple f d s).length + 32 - 32
        = (encodeErc6492AbiTriple f d s).length := by omega
    rw [h1, List.drop_left]
  have hwrapped : isErc6492Signature (serializeErc6492Signature f d s) = true := by
    unfold isErc6492Signature
    rw [Bool.and_eq_true, decide_eq_true_eq, decide_eq_true_eq]
    exact ⟨by rw [hlen]; omega, hdropmagic⟩
  have h64 : readWord (serializeErc6492Signature f d s) 64 = 128 + (pad32 d).length := by
    rw [readWord_eq_drop, hblob]
    rw [show (64 : Nat) = 32 + (32 + 0) from rfl]
    rw [drop_beBytes32, drop_beBytes32, List.drop_zero]
    exact readWord_beBytes32 _ _ hd
  have hw : readWord (serializeErc6492Signature f d s) (128 + (pad32 d).length)
      = s.length := by
    rw [readWord_eq_drop, hblob]
    have heq : 128 + (pad32 d).length
        = 32 + (32 + (32 + (32 + ((pad32 d).length + 0)))) := by omega
    rw [heq]
    rw [drop_beBytes32, drop_beBytes32, drop_beBytes32, drop_beBytes32]
    rw [List.drop_append, List.drop_zero]
    exact readWord_beBytes32 _ _ hs
  have hdrop : (serializeErc6492Signature f d s).drop (128 + (pad32 d).length + 32)
      = pad32 s ++ erc6492MagicSuffix := by
    rw [hblob]
    have heq2 : 128 + (pad32 d).length + 32
        = 32 + (32 + (32 + (32 + ((pad32 d).length + (32 + 0))))) := by omega
    rw [heq2]
    rw [drop_beBytes32, drop_beBytes32, drop_beBytes32, drop_beBytes32]
    rw [List.drop_append, drop_beBytes32, List.drop_zero]
  simp only [parseErc6492Signature, hwrapped, if_true]
  rw [h64]
  unfold readBytes
  rw [hw, hdrop]
  unfold pad32
  rw [List.append_assoc]
  exact List.take_left s _

/-- Claim C1 (refuted; code bug): the specification demands that every valid
decimal amount string convert exactly, with `integer_amount` equal to
`round(amount * 10 ^ 6)`, but the code converts through binary64
(`BigInt(parseFloat(amount) * 1000000)`).  For the valid amount string `4.1`
the double product is `4099999.9999999995`, so `BigInt` throws a
`RangeError` and the transfer aborts, while the specification demands
4100000.  The specific example `10.5` does convert to 10500000. -/
theorem amountInWei_floating_point_conversion_bug :
    amountInWei "4.1" = Except.error "RangeError" ∧
    specAmountMicro "4.1" = some 4100000 ∧
    amountInWei "10.5" = Except.ok 10500000 ∧
    specAmountMicro "10.5" = some 10500000 := by decide

/-- Claim C2 (refuted; code bug): the executor reads `usdcBalanceBefore` and
`usdcBalanceAfter` consecutively, both after the receipt (interactions 9 and
10, after submission at interaction 7), so in an environment whose balance
falls from 100 to 89 when the operation executes (amount 10, fee 1) the
logged USDC consumed is `89 - 89 - 10 = -10`, negative, whereas the value
demanded by the claim, with the before-balance sampled before submission, is
`100 - 89 - 10 = 1 ≥ 0`. -/
theorem usdcConsumed_balance_sampled_after_receipt :
    (transferUSDC sampleEnv samplePk "0xdef" 10).usdcConsumed = -10 ∧
    (transferUSDC sampleEnv samplePk "0xdef" 10).receipt.success = true ∧
    6 < submissionStepIndex ∧
    (sampleEnv.balanceOfAt 6 : Int) - (sampleEnv.balanceOfAt 10 : Int) - 10 = 1 ∧
    ¬ 0 ≤ (transferUSDC sampleEnv samplePk "0xdef" 10).usdcConsumed := by decide

/-- Counterexample to claim C3 as stated: with a paymaster surcharge of
`2 ^ 53 + 1` (not representable in binary64) and a bundler estimate of 0,
the submitted post-op gas limit is `2 ^ 53`, strictly below both the
surcharge and the true maximum, because both bigints pass through
`Number` before `Math.max`. -/
theorem postOpGasLimit_number_rounding_counterexample :
    (transferUSDC envLargeCharge samplePk "0xdef" 5).sent.paymasterPostOpGasLimit
      = 2 ^ 53 ∧
    envLargeCharge.additionalGasChargeReturn.getD 0 = 2 ^ 53 + 1 ∧
    (transferUSDC envLargeCharge samplePk "0xdef" 5).sent.paymasterPostOpGasLimit
      < max (envLargeCharge.estimateUserOperationGas
          (transferUSDC envLargeCharge samplePk "0xdef" 5).estimateRequest).paymasterPostOpGasLimit
        (envLargeCharge.additionalGasChargeReturn.getD 0) := by decide

/-- Claim C3 (amended): whenever the bundler estimate and the paymaster
surcharge are below `2 ^ 53` (hence exactly representable in binary64), the
post-op gas limit submitted with the user operation equals the maximum of
the estimated limit and the surcharge, and in particular is at least the
surcharge. -/
theorem postOpGasLimit_max_when_below_2pow53 (env : ChainEnv) (pk : List Char)
    (r : String) (a : Int)
    (hest : ∀ q, (env.estimateUserOperationGas q).paymasterPostOpGasLimit < 2 ^ 53)
    (hch : env.additionalGasChargeReturn.getD 0 < 2 ^ 53) :
    (transferUSDC env pk r a).sent.paymasterPostOpGasLimit
      = max (env.estimateUserOperationGas
          (transferUSDC env pk r a).estimateRequest).paymasterPostOpGasLimit
        (env.additionalGasChargeReturn.getD 0) ∧
    env.additionalGasChargeReturn.getD 0
      ≤ (transferUSDC env pk r a).sent.paymasterPostOpGasLimit := by
  have h1 : (transferUSDC env pk r a).sent.paymasterPostOpGasLimit
      = jsPostOpLimit (env.estimateUserOperationGas
          (transferUSDC env pk r a).estimateRequest).paymasterPostOpGasLimit
        (env.additionalGasChargeReturn.getD 0) := rfl
  rw [h1, jsPostOpLimit_eq_max (hest _) hch]
  exact ⟨rfl, le_max_right _ _⟩

/-- Witness for the amended claim C3 at the concrete benign environment. -/
theorem postOpGasLimit_max_when_below_2pow53_witness :
    sampleEnv.additionalGasChargeReturn.getD 0 < 2 ^ 53 ∧
    ((transferUSDC sampleEnv samplePk "0xdef" 5).sent.paymasterPostOpGasLimit
      = max (sampleEnv.estimateUserOperationGas
          (transferUSDC sampleEnv samplePk "0xdef" 5).estimateRequest).paymasterPostOpGasLimit
        (sampleEnv.additionalGasChargeReturn.getD 0) ∧
    sampleEnv.additionalGasChargeReturn.getD 0
      ≤ (transferUSDC sampleEnv samplePk "0xdef" 5).sent.paymasterPostOpGasLimit) :=
  ⟨by decide, postOpGasLimit_max_when_below_2pow53 sampleEnv samplePk "0xdef" 5
    (fun _ => show (400 : Nat) < 2 ^ 53 by norm_num) (by decide)⟩

/-- Claim C4 (confirmed): the permit signature the executor embeds is
exactly the result of signing the permit typed data (tagged `Permit`) and
stripping any ERC-6492 wrapper with `parseErc6492Signature`; and parsing is
a left inverse of wrapping, so a wrapped signature is never packed. -/
theorem permitSignature_is_unwrapped (env : ChainEnv) (pk : List Char)
    (r : String) (a : Int) :
    (transferUSDC env pk r a).permitSignature
      = (parseErc6492Signature (env.signTypedData
          (transferUSDC env pk r a).accountAddress
          ⟨(transferUSDC env pk r a).permitData, "Permit"⟩)).signature ∧
    ∀ f d s, 128 + (pad32 d).length < 2 ^ 256 → s.length < 2 ^ 256 →
      (parseErc6492Signature (serializeErc6492Signature f d s)).signature = s :=
  ⟨rfl, fun f d s hd hs => parse_serialize_signature f d s hd hs⟩

/-- Witness for claim C4 at a concrete environment and a concrete wrapper. -/
theorem permitSignature_is_unwrapped_witness :
    (128 + (pad32 [5]).length < 2 ^ 256 ∧ ([9, 9] : List Nat).length < 2 ^ 256) ∧
    (transferUSDC sampleEnv samplePk "0xdef" 5).permitSignature
      = (parseErc6492Signature (sampleEnv.signTypedData
          (transferUSDC sampleEnv samplePk "0xdef" 5).accountAddress
          ⟨(transferUSDC sampleEnv samplePk "0xdef" 5).permitData, "Permit"⟩)).signature ∧
    (parseErc6492Signature (serializeErc6492Signature 1 [5] [9, 9])).signature
      = [9, 9] :=
  ⟨⟨by decide, by decide⟩,
    (permitSignature_is_unwrapped sampleEnv samplePk "0xdef" 5).1,
    (permitSignature_is_unwrapped sampleEnv samplePk "0xdef" 5).2 1 [5] [9, 9]
      (by decide) (by decide)⟩

/-- Claim C5 (confirmed): the packed paymaster data is exactly one reserved
zero byte, then the 20-byte token address, then the 32-byte big-endian
sponsorship ceiling, then the variable-length permit signature. -/
theorem paymasterData_packed_layout (env : ChainEnv) (pk : List Char)
    (r : String) (a : Int) :
    (transferUSDC env pk r a).sent.paymasterData
      = 0 :: (beBytes 20 ARBITRUM_SEPOLIA_USDC ++
          (beBytes 32 MAX_GAS_USDC ++ (transferUSDC env pk r a).permitSignature)) ∧
    (beBytes 20 ARBITRUM_SEPOLIA_USDC).length = 20 ∧
    (beBytes 32 MAX_GAS_USDC).length = 32 := by
  refine ⟨?_, beBytes_length 20 _, beBytes_length 32 _⟩
  show encodePacked _ = _
  simp [encodePacked, packValue]
  rfl

/-- Claim C6 (confirmed): the ceiling in the permit construction and the
ceiling packed into the paymaster data are both the constant
`MAX_GAS_USDC = 1000000` (1 USDC at 6 decimals), and the permit value never
exceeds it. -/
theorem sponsorship_ceiling_consistent (env : ChainEnv) (pk : List Char)
    (r : String) (a : Int) :
    (transferUSDC env pk r a).permitData.value = MAX_GAS_USDC ∧
    ((transferUSDC env pk r a).sent.paymasterData.drop 21).take 32
      = beBytes 32 MAX_GAS_USDC ∧
    MAX_GAS_USDC = 1000000 ∧
    (transferUSDC env pk r a).permitData.value ≤ MAX_GAS_USDC := by
  refine ⟨rfl, ?_, rfl, le_refl _⟩
  have hdata : (transferUSDC env pk r a).sent.paymasterData
      = (0 :: beBytes 20 ARBITRUM_SEPOLIA_USDC) ++
        (beBytes 32 MAX_GAS_USDC ++ (transferUSDC env pk r a).permitSignature) := by
    show encodePacked _ = _
    simp [encodePacked, packValue]
    rfl
  rw [hdata]
  have h21 : (21 : Nat) = (0 :: beBytes 20 ARBITRUM_SEPOLIA_USDC).length := by
    simp [beBytes_length]
  rw [h21, List.drop_left]
  have htake := List.take_left (beBytes 32 MAX_GAS_USDC)
    (transferUSDC env pk r a).permitSignature
  rw [beBytes_length] at htake
  exact htake

/-- Claim C7 (confirmed): the amount string `0` is not refused by the UI
control (a nonempty string is truthy, so the button stays enabled), but the
conversion produces integer amount 0, satisfying the stated boundary; the
executor itself performs no validation and forwards a zero amount and any
recipient unchanged into the transfer call. -/
theorem zero_amount_conversion_boundary :
    amountInWei "0" = Except.ok 0 ∧
    transferButtonDisabled false "0xdef" "0" = false ∧
    ∀ env pk r, (transferUSDC env pk r 0).sent.calls
      = [⟨ARBITRUM_SEPOLIA_USDC, "transfer", r, 0⟩] :=
  ⟨by decide, by decide, fun env pk r => rfl⟩

/-- Claim C8 (confirmed): for a provisioned account the transfer executor
re-derives, from the cached private key, exactly the smart-account address
the provisioner stored; both sites call the same deterministic derivation
with the owner derived from the same key and the same fixed version
`0.3.1`, and the stored key (sliced and re-prefixed with `0x`) equals the
generated key. -/
theorem smart_account_derivation_deterministic (env : ChainEnv) (r : String)
    (a : Int) (h : env.generatePrivateKey.take 2 = ['0', 'x']) :
    (transferUSDC env (createAccountCore env).privateKey r a).accountAddress
      = (createAccountCore env).address := by
  have hk : (createAccountCore env).privateKey = env.generatePrivateKey := by
    show '0' :: 'x' :: env.generatePrivateKey.drop 2 = env.generatePrivateKey
    conv_rhs => rw [← List.take_append_drop 2 env.generatePrivateKey]
    rw [h]
    rfl
  rw [hk]
  rfl

/-- Witness for claim C8 at the concrete benign environment. -/
theorem smart_account_derivation_deterministic_witness :
    sampleEnv.generatePrivateKey.take 2 = ['0', 'x'] ∧
    (transferUSDC sampleEnv (createAccountCore sampleEnv).privateKey "0xdef" 3).accountAddress
      = (createAccountCore sampleEnv).address :=
  ⟨by decide, smart_account_derivation_deterministic sampleEnv "0xdef" 3 (by decide)⟩

/-- Claim C9 (confirmed): the transfer handler clears the recipient and
amount fields exactly when the executor outcome is a receipt with
`success = true`; on a failed receipt or a caught exception both fields keep
their previous values; and in every outcome the cached account, the balance
strings and the cleared loading flag are as before, only status, loading,
recipient and amount being touched. -/
theorem transfer_handler_frame (st : UIState)
    (exec : List Char → String → Int → Except String UserOpReceipt) :
    (transferUI st exec).account = st.account ∧
    (transferUI st exec).balance = st.balance ∧
    (transferUI st exec).usdcBalance = st.usdcBalance ∧
    (transferUI st exec).loading = false ∧
    (transferUI st exec).recipientAddress =
      (match transferOutcome st exec with
       | .ok rcpt => if rcpt.success then "" else st.recipientAddress
       | .error _ => st.recipientAddress) ∧
    (transferUI st exec).amount =
      (match transferOutcome st exec with
       | .ok rcpt => if rcpt.success then "" else st.amount
       | .error _ => st.amount) := by
  unfold transferUI transferEntry
  cases h : transferOutcome st exec with
  | ok rcpt => cases hs : rcpt.success <;> simp [h, hs]
  | error e => simp [h]

/-- Claim C10 (confirmed): both handlers raise the loading flag on entry and
lower it on every exit path, successful or failing, so the controls
disabled while pending are always re-enabled. -/
theorem handlers_release_loading_lock (st : UIState)
    (outcome : Except String AccountInfo)
    (exec : List Char → String → Int → Except String UserOpReceipt) :
    (createAccountEntry st).loading = true ∧
    (createAccountUI st outcome).loading = false ∧
    (transferEntry st).loading = true ∧
    (transferUI st exec).loading = false :=
  ⟨rfl, rfl, rfl, rfl⟩

end SmartWalletAA
